import Mathlib

/-!
Verification of the prayer-times extraction core of
`extract-prayer-times.js` (PrayerTimesScraper).

The script scrapes one week of prayer rows, normalizes 12-hour time
strings to 24-hour "HH:MM" strings (`convertTo24Hour`), filters rows with
invalid day numbers, sorts the survivors by day number, builds a
day-of-week fallback map, and expands the week sample into a full
month table (one row per calendar day).

The embedding below mirrors the JavaScript semantics: strings are Lean
`String`s, JavaScript `NaN` propagation through `parseInt`/arithmetic is
an `Option Int` (`none` = NaN), and JavaScript objects holding prayer
columns are ordered association lists (`List (String × String)`).
-/

namespace PrayerTimes

/-- Whitespace recognized by JavaScript `String.prototype.trim` on the
character set appearing in scraped time strings. -/
def isWS (c : Char) : Bool :=
  c = ' ' || c = '\t' || c = '\n' || c = '\r'

/-- Model of JavaScript `s.trim()`: drop leading and trailing whitespace. -/
def jsTrim (s : String) : String :=
  String.mk (((s.toList.dropWhile isWS).reverse.dropWhile isWS).reverse)

/-- Helper for `jsSplit`: walk the characters, cutting at the separator. -/
def jsSplitAux (sep : Char) : List Char → List Char → List String
  | [], acc => [String.mk acc.reverse]
  | c :: cs, acc =>
    if c = sep then String.mk acc.reverse :: jsSplitAux sep cs []
    else jsSplitAux sep cs (c :: acc)

/-- Model of JavaScript `s.split(sep)` for a single-character separator:
always returns at least one piece; `"".split(sep)` is `[""]`. -/
def jsSplit (s : String) (sep : Char) : List String :=
  jsSplitAux sep s.toList []

/-- Model of JavaScript `s.includes(c)` for a single character. -/
def jsContains (s : String) (c : Char) : Bool :=
  s.toList.any (fun x => x = c)

/-- Numeric value of a decimal digit character. -/
def digitVal (c : Char) : Nat := c.toNat - 48

/-- Decimal value of a digit list, most significant first. -/
def parseDigits (ds : List Char) : Nat :=
  ds.foldl (fun acc c => acc * 10 + digitVal c) 0

/-- Model of JavaScript `parseInt(s)` in its radix-10 path: skip leading
whitespace, accept an optional sign, read the longest decimal-digit
prefix, and return NaN (`none`) when no digit is found. The hexadecimal
auto-detection of `parseInt` is not reachable from "H:MM" time strings
and is not modelled. -/
def jsParseInt (s : String) : Option Int :=
  let cs := s.toList.dropWhile isWS
  match cs with
  | '-' :: rest =>
    let ds := rest.takeWhile Char.isDigit
    if ds.isEmpty then none else some (-(parseDigits ds : Int))
  | '+' :: rest =>
    let ds := rest.takeWhile Char.isDigit
    if ds.isEmpty then none else some ((parseDigits ds : Int))
  | _ =>
    let ds := cs.takeWhile Char.isDigit
    if ds.isEmpty then none else some ((parseDigits ds : Int))

/-- Model of JavaScript `Number.prototype.toString` on the values the
script produces: `NaN` (`none`) prints as "NaN", integers in decimal. -/
def jsNumToString : Option Int → String
  | none => "NaN"
  | some n => toString n

/-- Model of JavaScript `s.padStart(2, '0')`. -/
def padStart2 (s : String) : String :=
  if s.length < 2 then String.mk (List.replicate (2 - s.length) '0' ++ s.toList)
  else s

/-- Format one numeric component as the script does on line 70:
`toString()` then `padStart(2, '0')`. -/
def fmt2 (x : Option Int) : String := padStart2 (jsNumToString x)

/-- The AM/PM disambiguation of lines 57-67, keyed by prayer name. NaN
(`none`) is unchanged by every branch: `NaN === 12` is false and
`NaN + 12` is NaN. Note the PM branch tests the source's misspelling
"Magrib", not "Maghrib"; any name outside the three tested pairs falls
through unadjusted. -/
def hourPolicy (prayerName : String) (hours0 : Option Int) : Option Int :=
  if prayerName = "Fajr" ∨ prayerName = "Sunrise" then
    if hours0 = some 12 then some 0 else hours0
  else if prayerName = "Dhuhr" ∨ prayerName = "Asr" then
    if hours0 = some 12 then hours0 else hours0.map (fun h => h + 12)
  else if prayerName = "Magrib" ∨ prayerName = "Isha" then
    if hours0 = some 12 then hours0 else hours0.map (fun h => h + 12)
  else hours0

/-- Lines 54-55 and 69-70 of `convertTo24Hour`: parse `hours`/`minutes`
from the (already comma-stripped) time string, apply the per-prayer
policy, and format. `parseInt` of a missing split piece (JS `undefined`)
is NaN (`Option.bind` over `List.get?`). -/
def convertCore (t prayerName : String) : String :=
  let parts := jsSplit t ':'
  fmt2 (hourPolicy prayerName (jsParseInt (parts.headD ""))) ++ ":" ++
    fmt2 ((parts.get? 1).bind jsParseInt)

/-- Model of `convertTo24Hour(timeStr, prayerName)` (lines 44-71).
`!timeStr || timeStr.trim() === ''` is equivalent to `trim = ""` since
the empty string trims to itself; when a comma is present only the
trimmed piece before the first comma is kept (line 50). -/
def convertTo24Hour (timeStr prayerName : String) : String :=
  if jsTrim timeStr = "" then ""
  else
    convertCore
      (if jsContains timeStr ',' then jsTrim ((jsSplit timeStr ',').headD "")
       else timeStr)
      prayerName

/-- The pair of raw time strings scraped for one prayer (lines 130-135):
the `start` (athan) time and the `iqamah` time. -/
structure PrayerEntry where
  start : String
  iqamah : String
deriving DecidableEq

/-- One scraped row, as returned by the page evaluation (lines 138-144). -/
structure RawDay where
  date : String
  dayNumber : Int
  dayOfWeek : Int
  isToday : Bool
  prayers : List (String × PrayerEntry)
deriving DecidableEq

/-- A JavaScript object holding string-valued prayer columns, modelled as
an ordered association list (JS objects preserve insertion order). -/
abbrev JsObj := List (String × String)

/-- One processed record (lines 194-200). -/
structure ProcessedDay where
  dayNumber : Int
  dayOfWeek : Int
  isToday : Bool
  athan : JsObj
  iqama : JsObj
deriving DecidableEq

/-- The initial athan row of line 171: all six prayer columns empty. -/
def athanInit : JsObj :=
  [("Fajr", ""), ("Sunrise", ""), ("Dhuhr", ""), ("Asr", ""), ("Maghrib", ""), ("Isha", "")]

/-- The initial iqama row of line 172: five columns, no Sunrise. -/
def iqamaInit : JsObj :=
  [("Fajr", ""), ("Dhuhr", ""), ("Asr", ""), ("Maghrib", ""), ("Isha", "")]

/-- Model of `if (obj.hasOwnProperty(k)) obj[k] = v` on a fixed-key
object: overwrite the value stored at `k` when the key is present,
otherwise change nothing (no key is ever added). -/
def setIfHas (o : JsObj) (k v : String) : JsObj :=
  o.map (fun p => if p.1 = k then (k, v) else p)

/-- Object lookup `obj[k]` on an association-list object. -/
def jsGet (o : JsObj) (k : String) : Option String :=
  (o.find? (fun p => p.1 == k)).map Prod.snd

/-- The body of the per-prayer loop of lines 175-192: correct the
"Magrib" spelling for the storage key, convert both times with the
ORIGINAL scraped name (the source passes `name`, not `correctedName`,
to `convertTo24Hour`), and store into the athan and iqama rows guarded
by `hasOwnProperty` (plus the redundant `correctedName !== 'Sunrise'`
check for iqama). -/
def processOnePrayer (rows : JsObj × JsObj) (nt : String × PrayerEntry) : JsObj × JsObj :=
  let name := nt.1
  let times := nt.2
  let correctedName := if name = "Magrib" then "Maghrib" else name
  let start24 := convertTo24Hour times.start name
  let iqamah24 := convertTo24Hour times.iqamah name
  let athanRow := setIfHas rows.1 correctedName start24
  let iqamaRow :=
    if correctedName ≠ "Sunrise" then setIfHas rows.2 correctedName iqamah24
    else rows.2
  (athanRow, iqamaRow)

/-- The per-prayer loop of lines 175-192 over `Object.entries` in
insertion order, starting from the fixed-key rows of lines 171-172. -/
def processPrayers (prayers : List (String × PrayerEntry)) : JsObj × JsObj :=
  prayers.foldl processOnePrayer (athanInit, iqamaInit)

/-- Build a `ProcessedDay` from one raw row (lines 171-200). -/
def processDay (day : RawDay) : ProcessedDay :=
  let rows := processPrayers day.prayers
  { dayNumber := day.dayNumber
    dayOfWeek := day.dayOfWeek
    isToday := day.isToday
    athan := rows.1
    iqama := rows.2 }

/-- The forEach of lines 164-201: rows with `dayNumber <= 0` are skipped
(logged, run continues); the rest are processed and pushed in order. -/
def processWeek (extractedData : List RawDay) : List ProcessedDay :=
  extractedData.filterMap
    (fun day => if day.dayNumber ≤ 0 then none else some (processDay day))

/-- Stable insertion of one record into a day-number-sorted list; a new
record goes after existing records with the same day number, matching a
stable JS `Array.prototype.sort` with comparator `a.dayNumber - b.dayNumber`. -/
def insertByDay (x : ProcessedDay) : List ProcessedDay → List ProcessedDay
  | [] => [x]
  | y :: ys => if y.dayNumber ≤ x.dayNumber then y :: insertByDay x ys
               else x :: y :: ys

/-- The sort of line 208: stable sort by ascending `dayNumber`. -/
def sortByDayNumber (l : List ProcessedDay) : List ProcessedDay :=
  l.foldr insertByDay []

/-- The day-of-week map of lines 219-227, built from the sorted records:
records with `dayOfWeek >= 0` overwrite the slot for their weekday, so a
later record wins ties. Modelled as a function from weekday to the
optional (athan, iqama) pattern. -/
def buildDayOfWeekMap (l : List ProcessedDay) : Int → Option (JsObj × JsObj) :=
  l.foldl
    (fun m day =>
      if day.dayOfWeek ≥ 0 then
        fun k => if k = day.dayOfWeek then some (day.athan, day.iqama) else m k
      else m)
    (fun _ => none)

/-- Gregorian leap-year rule, as implemented by the JS `Date` calendar. -/
def isLeapYear (y : Nat) : Bool :=
  (y % 4 = 0 && y % 100 ≠ 0) || y % 400 = 0

/-- Model of `new Date(year, month + 1, 0).getDate()` (line 214): the
number of days in the 0-based `month` of `year`. -/
def daysInMonth (year month : Nat) : Nat :=
  match month with
  | 0 => 31
  | 1 => if isLeapYear year then 29 else 28
  | 2 => 31
  | 3 => 30
  | 4 => 31
  | 5 => 30
  | 6 => 31
  | 7 => 31
  | 8 => 30
  | 9 => 31
  | 10 => 30
  | _ => 31

/-- Model of `new Date(year, month, day).getDay()` (lines 251-252):
weekday of the Gregorian date, 0 = Sunday, computed by Zeller's
congruence (month is 0-based as in JS). -/
def jsGetDay (year month day : Nat) : Int :=
  let m := if month < 2 then month + 13 else month + 1
  let yr := if month < 2 then year - 1 else year
  let K := yr % 100
  let J := yr / 100
  let h := (day + (13 * (m + 1)) / 5 + K + K / 4 + J / 4 + 5 * J) % 7
  Int.ofNat ((h + 6) % 7)

/-- Placeholder record used to express `processedWeekData[0]` totally;
the source only reaches that access with a non-empty record list. -/
def emptyDay : ProcessedDay :=
  { dayNumber := 0, dayOfWeek := -1, isToday := false, athan := [], iqama := [] }

/-- The body of the month loop (lines 234-279): take the record whose
`dayNumber` equals the day if one exists (`Array.prototype.find`, first
match in list order); else the day-of-week pattern for the date's
weekday; else the first record of the sorted list. -/
def pickRow (records : List ProcessedDay) (dowMap : Int → Option (JsObj × JsObj))
    (year month day : Nat) : JsObj × JsObj :=
  match records.find? (fun r => r.dayNumber == Int.ofNat day) with
  | some dayData => (dayData.athan, dayData.iqama)
  | none =>
    match dowMap (jsGetDay year month day) with
    | some pat => pat
    | none => ((records.headD emptyDay).athan, (records.headD emptyDay).iqama)

/-- The loop of lines 233-280 unrolled structurally: starting at day
`start`, produce `n` athan rows and `n` iqama rows, each row tagged with
its day number (`{day: day, ...}`). -/
def expandDays (records : List ProcessedDay) (dowMap : Int → Option (JsObj × JsObj))
    (year month : Nat) : Nat → Nat → List (Nat × JsObj) × List (Nat × JsObj)
  | _, 0 => ([], [])
  | start, Nat.succ n =>
    let row := pickRow records dowMap year month start
    let rest := expandDays records dowMap year month (start + 1) n
    ((start, row.1) :: rest.1, (start, row.2) :: rest.2)

/-- The month expander (lines 233-280): one row per day `1..daysInMonth`
of the target 0-based `(year, month)`, producing the `athanMonth` and
`iqamaMonth` arrays. -/
def expandMonth (records : List ProcessedDay) (dowMap : Int → Option (JsObj × JsObj))
    (year month : Nat) : List (Nat × JsObj) × List (Nat × JsObj) :=
  expandDays records dowMap year month 1 (daysInMonth year month)

/-- The pure core of `extractPrayerTimes` (lines 156-280): an empty
scrape raises `'No prayer data found on the page'` (line 157); when
every row is filtered out, the sample-data log at line 205 evaluates
`processedWeekData[0].athan` on `undefined` and raises a `TypeError`
before any expansion runs — both modelled as `Except.error`. Otherwise
the records are sorted, the day-of-week map is built from the sorted
records, and the current-month table is produced. -/
def runExtraction (extractedData : List RawDay) (year month : Nat) :
    Except String (List (Nat × JsObj) × List (Nat × JsObj)) :=
  if extractedData.length = 0 then
    Except.error "No prayer data found on the page"
  else
    match processWeek extractedData with
    | [] => Except.error "TypeError: cannot read properties of undefined"
    | d :: ds =>
      let sorted := sortByDayNumber (d :: ds)
      Except.ok (expandMonth sorted (buildDayOfWeekMap sorted) year month)

/-- Substring containment on character lists, used to state that an
output carries "NaN" somewhere. -/
def containsSub (needle hay : List Char) : Prop :=
  ∃ s t, hay = s ++ needle ++ t

theorem string_data_append (a b : String) : (a ++ b).data = a.data ++ b.data := by
  cases a
  cases b
  rfl

theorem convertTo24Hour_no_comma (timeStr p : String) (h1 : jsTrim timeStr ≠ "")
    (h2 : jsContains timeStr ',' = false) :
    convertTo24Hour timeStr p = convertCore timeStr p := by
  unfold convertTo24Hour
  rw [if_neg h1, h2]
  rfl

theorem convertCore_parsed (t p hs ms : String) (rest : List String) (h m : Int)
    (h3 : jsSplit t ':' = hs :: ms :: rest)
    (h4 : jsParseInt hs = some h) (h5 : jsParseInt ms = some m) :
    convertCore t p = fmt2 (hourPolicy p (some h)) ++ ":" ++ fmt2 (some m) := by
  unfold convertCore
  rw [h3]
  simp [h4, h5]

/-- C9: for every prayer name, normalizing an empty or whitespace-only
raw time string returns the empty string (line 45 guard). -/
theorem blank_time_empty (timeStr prayerName : String) (h : jsTrim timeStr = "") :
    convertTo24Hour timeStr prayerName = "" := by
  unfold convertTo24Hour
  rw [if_pos h]

theorem blank_time_empty_witness :
    jsTrim "   " = "" ∧ convertTo24Hour "   " "Isha" = "" :=
  ⟨by decide, blank_time_empty "   " "Isha" (by decide)⟩

/-- C6: for every raw time string containing a comma, the normalizer
processes only the whitespace-trimmed substring before the first comma
(lines 49-52); in particular "1:00,2:30" with prayer "Isha" yields
"13:00". -/
theorem comma_takes_first_time (timeStr p : String)
    (h1 : jsTrim timeStr ≠ "") (h2 : jsContains timeStr ',' = true) :
    convertTo24Hour timeStr p = convertCore (jsTrim ((jsSplit timeStr ',').headD "")) p ∧
    convertTo24Hour "1:00,2:30" "Isha" = "13:00" := by
  constructor
  · unfold convertTo24Hour
    rw [if_neg h1, h2]
    rfl
  · decide

theorem comma_takes_first_time_witness :
    (jsTrim "1:00,2:30" ≠ "" ∧ jsContains "1:00,2:30" ',' = true) ∧
    convertTo24Hour "1:00,2:30" "Isha" = "13:00" :=
  ⟨⟨by decide, by decide⟩,
   (comma_takes_first_time "1:00,2:30" "Isha" (by decide) (by decide)).2⟩

/-- C8: the month expander is deterministic — identical processed
records, identical day-of-week map, and the same target (year, month)
produce identical tables. `expandMonth` takes no other input (in
particular no clock), so the output cannot depend on invocation time. -/
theorem expandMonth_deterministic (r1 r2 : List ProcessedDay)
    (dm1 dm2 : Int → Option (JsObj × JsObj)) (y mo : Nat)
    (hr : r1 = r2) (hdm : dm1 = dm2) :
    expandMonth r1 dm1 y mo = expandMonth r2 dm2 y mo := by
  rw [hr, hdm]

theorem expandMonth_deterministic_witness :
    (([] : List ProcessedDay) = []) ∧
    expandMonth [] (fun _ => none) 2025 0 = expandMonth [] (fun _ => none) 2025 0 :=
  ⟨rfl, expandMonth_deterministic [] [] (fun _ => none) (fun _ => none) 2025 0 rfl rfl⟩

/-- C2: the run produces a month table exactly when the processed record
set is non-empty; an empty processed set aborts (line 157 for an empty
scrape, otherwise the `processedWeekData[0].athan` access at line 205,
which precedes the expansion loop) and emits no table. -/
theorem run_aborts_iff_no_records (data : List RawDay) (y mo : Nat) :
    (∃ out, runExtraction data y mo = Except.ok out) ↔ processWeek data ≠ [] := by
  unfold runExtraction
  rcases data with _ | ⟨d, ds⟩
  · simp [processWeek]
  · rw [if_neg (by simp)]
    cases hpw : processWeek (d :: ds) with
    | nil => simp [hpw]
    | cons q qs => simp [hpw]

/-- C1 counterexample: the claim predicts that the correctly spelled
"Maghrib" gets the PM shift, so "5:30" would normalize to "17:30"; the
code's PM branch only tests the misspelling "Magrib", and "Maghrib"
falls through unadjusted, yielding "05:30". -/
theorem maghrib_passthrough_cex :
    convertTo24Hour "5:30" "Maghrib" = "05:30" ∧
    convertTo24Hour "5:30" "Maghrib" ≠ "17:30" := by
  constructor
  · decide
  · decide

/-- C1 (amended): for every parsed "H:MM" input and prayer name among
{Dhuhr, Asr, Magrib, Isha} — the names the code actually tests — the
normalized hour is 12 when the parsed hour is 12 and parsed hour + 12
otherwise; the correctly spelled "Maghrib" matches no branch and its
hour passes through unchanged. -/
theorem pm_hour_conversion (timeStr hs ms : String) (rest : List String)
    (h m : Int) (p : String)
    (h1 : jsTrim timeStr ≠ "")
    (h2 : jsContains timeStr ',' = false)
    (h3 : jsSplit timeStr ':' = hs :: ms :: rest)
    (h4 : jsParseInt hs = some h)
    (h5 : jsParseInt ms = some m)
    (hp : p = "Dhuhr" ∨ p = "Asr" ∨ p = "Magrib" ∨ p = "Isha") :
    convertTo24Hour timeStr p =
      padStart2 (toString (if h = 12 then (12 : Int) else h + 12)) ++ ":" ++
        padStart2 (toString m) ∧
    convertTo24Hour timeStr "Maghrib" =
      padStart2 (toString h) ++ ":" ++ padStart2 (toString m) := by
  constructor
  · rw [convertTo24Hour_no_comma timeStr p h1 h2,
      convertCore_parsed timeStr p hs ms rest h m h3 h4 h5]
    have hpol : hourPolicy p (some h) = some (if h = 12 then (12 : Int) else h + 12) := by
      rcases hp with rfl | rfl | rfl | rfl <;>
        · by_cases h12 : h = 12 <;> simp [hourPolicy, h12]
    rw [hpol]
    rfl
  · rw [convertTo24Hour_no_comma timeStr "Maghrib" h1 h2,
      convertCore_parsed timeStr "Maghrib" hs ms rest h m h3 h4 h5]
    have hpol : hourPolicy "Maghrib" (some h) = some h := by
      simp [hourPolicy]
    rw [hpol]
    rfl

theorem pm_hour_conversion_witness :
    (jsTrim "5:30" ≠ "" ∧ jsContains "5:30" ',' = false ∧
      jsSplit "5:30" ':' = ["5", "30"] ∧
      jsParseInt "5" = some 5 ∧ jsParseInt "30" = some 30) ∧
    convertTo24Hour "5:30" "Dhuhr" =
      padStart2 (toString (if (5 : Int) = 12 then (12 : Int) else 5 + 12)) ++ ":" ++
        padStart2 (toString (30 : Int)) :=
  ⟨⟨by decide, by decide, by decide, by decide, by decide⟩,
   (pm_hour_conversion "5:30" "5" "30" [] 5 30 "Dhuhr" (by decide) (by decide)
      (by decide) (by decide) (by decide) (Or.inl rfl)).1⟩

/-- C5: for every parsed "H:MM" input and prayer name in
{Fajr, Sunrise}, the normalizer maps parsed hour 12 to 0 and leaves
every other parsed hour unchanged (lines 58-60). -/
theorem am_hour_conversion (timeStr hs ms : String) (rest : List String)
    (h m : Int) (p : String)
    (h1 : jsTrim timeStr ≠ "")
    (h2 : jsContains timeStr ',' = false)
    (h3 : jsSplit timeStr ':' = hs :: ms :: rest)
    (h4 : jsParseInt hs = some h)
    (h5 : jsParseInt ms = some m)
    (hp : p = "Fajr" ∨ p = "Sunrise") :
    convertTo24Hour timeStr p =
      padStart2 (toString (if h = 12 then (0 : Int) else h)) ++ ":" ++
        padStart2 (toString m) := by
  rw [convertTo24Hour_no_comma timeStr p h1 h2,
    convertCore_parsed timeStr p hs ms rest h m h3 h4 h5]
  have hpol : hourPolicy p (some h) = some (if h = 12 then (0 : Int) else h) := by
    rcases hp with rfl | rfl <;>
      · by_cases h12 : h = 12 <;> simp [hourPolicy, h12]
  rw [hpol]
  rfl

theorem am_hour_conversion_witness :
    (jsTrim "12:05" ≠ "" ∧ jsContains "12:05" ',' = false ∧
      jsSplit "12:05" ':' = ["12", "05"] ∧
      jsParseInt "12" = some 12 ∧ jsParseInt "05" = some 5) ∧
    convertTo24Hour "12:05" "Fajr" =
      padStart2 (toString (if (12 : Int) = 12 then (0 : Int) else 12)) ++ ":" ++
        padStart2 (toString (5 : Int)) :=
  ⟨⟨by decide, by decide, by decide, by decide, by decide⟩,
   am_hour_conversion "12:05" "12" "05" [] 12 5 "Fajr" (by decide) (by decide)
     (by decide) (by decide) (by decide) (Or.inl rfl)⟩

theorem setIfHas_keys (o : JsObj) (k v : String) :
    (setIfHas o k v).map Prod.fst = o.map Prod.fst := by
  induction o with
  | nil => rfl
  | cons p rest ih =>
    simp only [setIfHas, List.map_cons] at ih ⊢
    by_cases hp : p.1 = k
    · simp [hp, ih]
    · simp [hp, ih]

theorem processOnePrayer_keys (rows : JsObj × JsObj) (nt : String × PrayerEntry) :
    (processOnePrayer rows nt).1.map Prod.fst = rows.1.map Prod.fst ∧
    (processOnePrayer rows nt).2.map Prod.fst = rows.2.map Prod.fst := by
  unfold processOnePrayer
  dsimp only
  refine ⟨setIfHas_keys _ _ _, ?_⟩
  by_cases hs : (if nt.1 = "Magrib" then "Maghrib" else nt.1) ≠ "Sunrise"
  · rw [if_pos hs]
    exact setIfHas_keys _ _ _
  · rw [if_neg hs]

theorem setIfHas_cons (p : String × String) (rest : JsObj) (k v : String) :
    setIfHas (p :: rest) k v = (if p.1 = k then (k, v) else p) :: setIfHas rest k v := rfl

theorem jsGet_cons_pos (p : String × String) (rest : JsObj) (k : String) (h : p.1 = k) :
    jsGet (p :: rest) k = some p.2 := by
  unfold jsGet
  rw [List.find?_cons_of_pos]
  · rfl
  · simpa using h

theorem jsGet_cons_neg (p : String × String) (rest : JsObj) (k : String) (h : ¬ p.1 = k) :
    jsGet (p :: rest) k = jsGet rest k := by
  unfold jsGet
  rw [List.find?_cons_of_neg]
  simpa using h

theorem processFold_keys (prayers : List (String × PrayerEntry)) :
    ∀ rows : JsObj × JsObj,
      (prayers.foldl processOnePrayer rows).1.map Prod.fst = rows.1.map Prod.fst ∧
      (prayers.foldl processOnePrayer rows).2.map Prod.fst = rows.2.map Prod.fst := by
  induction prayers with
  | nil => exact fun rows => ⟨rfl, rfl⟩
  | cons nt rest ih =>
    intro rows
    rw [List.foldl_cons]
    exact ⟨(ih _).1.trans (processOnePrayer_keys rows nt).1,
           (ih _).2.trans (processOnePrayer_keys rows nt).2⟩

theorem jsGet_setIfHas (o : JsObj) (k v : String) (hk : k ∈ o.map Prod.fst) :
    jsGet (setIfHas o k v) k = some v := by
  induction o with
  | nil => simp at hk
  | cons p rest ih =>
    rw [setIfHas_cons]
    by_cases hp : p.1 = k
    · rw [if_pos hp, jsGet_cons_pos _ _ _ rfl]
    · rw [if_neg hp, jsGet_cons_neg _ _ _ hp]
      apply ih
      simp only [List.map_cons, List.mem_cons] at hk
      rcases hk with hk | hk
      · exact absurd hk.symm hp
      · exact hk

/-- C4: processing never produces a "Magrib" column — the athan and
iqama rows keep exactly the fixed key sets of lines 171-172, which carry
"Maghrib" and not "Magrib" — and a scraped "Magrib" entry stores its
converted times under the corrected key "Maghrib". -/
theorem magrib_key_corrected (prayers : List (String × PrayerEntry)) (entry : PrayerEntry) :
    (processPrayers prayers).1.map Prod.fst =
      ["Fajr", "Sunrise", "Dhuhr", "Asr", "Maghrib", "Isha"] ∧
    (processPrayers prayers).2.map Prod.fst =
      ["Fajr", "Dhuhr", "Asr", "Maghrib", "Isha"] ∧
    "Magrib" ∉ (processPrayers prayers).1.map Prod.fst ∧
    "Magrib" ∉ (processPrayers prayers).2.map Prod.fst ∧
    jsGet (processPrayers (prayers ++ [("Magrib", entry)])).1 "Maghrib" =
      some (convertTo24Hour entry.start "Magrib") ∧
    jsGet (processPrayers (prayers ++ [("Magrib", entry)])).2 "Maghrib" =
      some (convertTo24Hour entry.iqamah "Magrib") := by
  have hkeys := processFold_keys prayers (athanInit, iqamaInit)
  have ha : (processPrayers prayers).1.map Prod.fst =
      ["Fajr", "Sunrise", "Dhuhr", "Asr", "Maghrib", "Isha"] := hkeys.1
  have hi : (processPrayers prayers).2.map Prod.fst =
      ["Fajr", "Dhuhr", "Asr", "Maghrib", "Isha"] := hkeys.2
  refine ⟨ha, hi, ?_, ?_, ?_, ?_⟩
  · rw [ha]; decide
  · rw [hi]; decide
  · have hstep : processPrayers (prayers ++ [("Magrib", entry)]) =
        processOnePrayer (processPrayers prayers) ("Magrib", entry) := by
      unfold processPrayers
      rw [List.foldl_append, List.foldl_cons, List.foldl_nil]
    rw [hstep]
    unfold processOnePrayer
    simp only [if_pos rfl]
    exact jsGet_setIfHas _ _ _ (by rw [ha]; decide)
  · have hstep : processPrayers (prayers ++ [("Magrib", entry)]) =
        processOnePrayer (processPrayers prayers) ("Magrib", entry) := by
      unfold processPrayers
      rw [List.foldl_append, List.foldl_cons, List.foldl_nil]
    rw [hstep]
    unfold processOnePrayer
    simp only [if_pos rfl]
    rw [if_pos (by decide)]
    exact jsGet_setIfHas _ _ _ (by rw [hi]; decide)

/-- C7: a row with `dayNumber <= 0` is skipped by the filter of lines
164-169, so deleting it from the scrape changes neither the processed
record set nor the day-of-week fallback map built from the sorted
records (lines 219-227). -/
theorem invalid_day_skipped (l1 l2 : List RawDay) (bad : RawDay)
    (hbad : bad.dayNumber ≤ 0) :
    processWeek (l1 ++ bad :: l2) = processWeek (l1 ++ l2) ∧
    buildDayOfWeekMap (sortByDayNumber (processWeek (l1 ++ bad :: l2))) =
      buildDayOfWeekMap (sortByDayNumber (processWeek (l1 ++ l2))) := by
  have h1 : processWeek (l1 ++ bad :: l2) = processWeek (l1 ++ l2) := by
    unfold processWeek
    rw [List.filterMap_append, List.filterMap_append, List.filterMap_cons]
    rw [if_pos hbad]
  exact ⟨h1, by rw [h1]⟩

theorem invalid_day_skipped_witness :
    ((⟨"", 0, -1, false, []⟩ : RawDay).dayNumber ≤ 0) ∧
    processWeek ([] ++ (⟨"", 0, -1, false, []⟩ : RawDay) :: []) = processWeek ([] ++ []) :=
  ⟨by decide, (invalid_day_skipped [] [] ⟨"", 0, -1, false, []⟩ (by decide)).1⟩

theorem hourPolicy_none (p : String) : hourPolicy p none = none := by
  unfold hourPolicy
  split
  · rfl
  · split
    · split <;> simp
    · split
      · split <;> simp
      · rfl

/-- C10: the normalizer is a total function of its string inputs (the
Lean embedding is total by construction, as is the JS code: `parseInt`,
arithmetic on NaN, and `padStart` never throw), but when the (pre-comma)
input fails to parse as a colon-separated numeric hour and minute, the
output is a string containing "NaN" rather than an "HH:MM" or empty
string. -/
theorem conv_nan_on_unparseable (timeStr p t : String)
    (h1 : jsTrim timeStr ≠ "")
    (ht : t = if jsContains timeStr ',' then jsTrim ((jsSplit timeStr ',').headD "")
          else timeStr)
    (h2 : jsParseInt ((jsSplit t ':').headD "") = none ∨
          ((jsSplit t ':').get? 1).bind jsParseInt = none) :
    containsSub ("NaN".toList) (convertTo24Hour timeStr p).toList := by
  have hconv : convertTo24Hour timeStr p = convertCore t p := by
    unfold convertTo24Hour
    rw [if_neg h1, ← ht]
  rw [hconv]
  unfold convertCore
  dsimp only
  have hf : fmt2 none = "NaN" := rfl
  rcases h2 with h2 | h2
  · rw [h2, hourPolicy_none]
    refine ⟨[], ":".data ++ (fmt2 ((jsSplit t ':').get? 1 |>.bind jsParseInt)).data, ?_⟩
    simp only [String.toList, string_data_append, hf, List.nil_append, List.append_assoc]
  · rw [h2]
    refine ⟨(fmt2 (hourPolicy p (jsParseInt ((jsSplit t ':').headD "")))).data ++ ":".data,
      [], ?_⟩
    simp only [String.toList, string_data_append, hf, List.append_nil, List.append_assoc]

theorem conv_nan_on_unparseable_witness :
    (jsTrim "abc" ≠ "" ∧
      ("abc" : String) =
        (if jsContains "abc" ',' then jsTrim ((jsSplit "abc" ',').headD "") else "abc") ∧
      jsParseInt ((jsSplit "abc" ':').headD "") = none) ∧
    containsSub ("NaN".toList) (convertTo24Hour "abc" "Isha").toList :=
  ⟨⟨by decide, by decide, by decide⟩,
   conv_nan_on_unparseable "abc" "Isha" "abc" (by decide) (by decide)
     (Or.inl (by decide))⟩

theorem expandDays_spec (records : List ProcessedDay)
    (dowMap : Int → Option (JsObj × JsObj)) (year month : Nat) :
    ∀ n start,
      ((expandDays records dowMap year month start n).1.length = n ∧
       (expandDays records dowMap year month start n).2.length = n) ∧
      ∀ i, i < n →
        (expandDays records dowMap year month start n).1.get? i =
          some (start + i, (pickRow records dowMap year month (start + i)).1) ∧
        (expandDays records dowMap year month start n).2.get? i =
          some (start + i, (pickRow records dowMap year month (start + i)).2) := by
  intro n
  induction n with
  | zero =>
    intro start
    exact ⟨⟨rfl, rfl⟩, fun i hi => absurd hi (Nat.not_lt_zero i)⟩
  | succ n ih =>
    intro start
    constructor
    · constructor
      · show ((start, _) :: (expandDays records dowMap year month (start + 1) n).1).length
            = n + 1
        rw [List.length_cons, (ih (start + 1)).1.1]
      · show ((start, _) :: (expandDays records dowMap year month (start + 1) n).2).length
            = n + 1
        rw [List.length_cons, (ih (start + 1)).1.2]
    · intro i hi
      cases i with
      | zero =>
        constructor
        · show some (start, _) = some (start + 0, _)
          rw [Nat.add_zero]
        · show some (start, _) = some (start + 0, _)
          rw [Nat.add_zero]
      | succ j =>
        have hj : j < n := Nat.lt_of_succ_lt_succ hi
        have e : start + (j + 1) = (start + 1) + j := by omega
        constructor
        · show (expandDays records dowMap year month (start + 1) n).1.get? j = _
          rw [((ih (start + 1)).2 j hj).1, e]
        · show (expandDays records dowMap year month (start + 1) n).2.get? j = _
          rw [((ih (start + 1)).2 j hj).2, e]

/-- C3: for every target (year, month) and non-empty record list, the
expander emits exactly `daysInMonth` athan rows and `daysInMonth` iqama
rows; row `d` (at index `d - 1`) is tagged with day `d` and resolves by
the three-branch rule of lines 234-279: the first record whose
`dayNumber` equals `d` if one exists, else the day-of-week pattern for
the weekday of date (year, month, d) if present, else the first record
of the (sorted) list. -/
theorem expandMonth_rows_spec (records : List ProcessedDay)
    (dowMap : Int → Option (JsObj × JsObj)) (y mo : Nat) (hne : records ≠ []) :
    ((expandMonth records dowMap y mo).1.length = daysInMonth y mo ∧
     (expandMonth records dowMap y mo).2.length = daysInMonth y mo) ∧
    (∀ d, 1 ≤ d → d ≤ daysInMonth y mo →
      (expandMonth records dowMap y mo).1.get? (d - 1) =
        some (d, (pickRow records dowMap y mo d).1) ∧
      (expandMonth records dowMap y mo).2.get? (d - 1) =
        some (d, (pickRow records dowMap y mo d).2)) ∧
    (∀ d, pickRow records dowMap y mo d =
      match records.find? (fun r => r.dayNumber == Int.ofNat d) with
      | some r => (r.athan, r.iqama)
      | none =>
        match dowMap (jsGetDay y mo d) with
        | some pat => pat
        | none => ((records.head hne).athan, (records.head hne).iqama)) := by
  refine ⟨(expandDays_spec records dowMap y mo (daysInMonth y mo) 1).1, ?_, ?_⟩
  · intro d hd1 hd2
    have hi : d - 1 < daysInMonth y mo := by omega
    have hspec := (expandDays_spec records dowMap y mo (daysInMonth y mo) 1).2 (d - 1) hi
    have hd : 1 + (d - 1) = d := by omega
    rw [hd] at hspec
    exact hspec
  · intro d
    unfold pickRow
    cases records with
    | nil => exact absurd rfl hne
    | cons a rest => rfl

theorem expandMonth_rows_spec_witness :
    ([(⟨1, 3, false, athanInit, iqamaInit⟩ : ProcessedDay)] ≠ []) ∧
    (expandMonth [(⟨1, 3, false, athanInit, iqamaInit⟩ : ProcessedDay)]
        (fun _ => none) 2025 0).1.length = daysInMonth 2025 0 :=
  ⟨List.cons_ne_nil _ _,
   (expandMonth_rows_spec [⟨1, 3, false, athanInit, iqamaInit⟩]
      (fun _ => none) 2025 0 (List.cons_ne_nil _ _)).1.1⟩

end PrayerTimes
